import Mathlib

/- Shallow embedding of the NeuroHealth retrieval-and-triage engine
(`neurohealth/safety.py`, `neurohealth/kb.py`, `neurohealth/prompts.py`,
`neurohealth/engine.py`, `neurohealth/models.py`) together with proofs of the
specification claims about it.

Python text is modelled as `List Char`; Python numbers as `ℚ`/`ℤ` in exact
arithmetic; Python exceptions as `Except Err`.  The collaborators (embedding
client, LLM client) are modelled as function parameters, and the orchestrator
result additionally reports how many times each collaborator was invoked. -/

/-- Python strings are modelled as lists of characters. -/
abbrev Str := List Char

/-- Interpret a Lean string literal in the `Str` model. -/
def strOf (s : String) : Str := s.data

/-- Python `str.strip()`: remove leading and trailing whitespace. -/
def strip (s : Str) : Str :=
  ((s.dropWhile Char.isWhitespace).reverse.dropWhile Char.isWhitespace).reverse

/-- Python `str.lower()`, modelled characterwise. -/
def lowerStr (s : Str) : Str := s.map Char.toLower

/-- Python `str.split()` with no argument: split on whitespace runs, dropping empty fields. -/
def splitWs (s : Str) : List Str :=
  (List.splitOnP Char.isWhitespace s).filter (· ≠ [])

/-- Python `" ".join(parts)`. -/
def joinSpace (parts : List Str) : Str := List.intercalate [' '] parts

/-- Embeds `safety._normalize`: `" ".join(text.lower().split())`. -/
def _normalize (text : Str) : Str := joinSpace (splitWs (lowerStr text))

/-- Python substring containment (`needle in hay` for `str` operands). -/
def strContains (hay needle : Str) : Bool :=
  needle.isPrefixOf hay ||
    match hay with
    | [] => false
    | _ :: t => strContains t needle

/-- Value of a list of decimal digit characters read as a natural numeral. -/
def digitsVal (ds : Str) : ℕ := ds.foldl (fun a c => 10 * a + (c.toNat - 48)) 0

/-- Modelled from the Python built-in `float(s)`: accepts decimal literals
`[sign] (digits [. digits] | . digits) [(e|E) [sign] digits]` and yields the
exact rational value; `none` models the `ValueError` raise.  (`inf`/`nan` and
underscore digit separators are not modelled.) -/
def parseFloat (s : Str) : Option ℚ :=
  let signAndRest : ℚ × Str :=
    match s with
    | '+' :: r => (1, r)
    | '-' :: r => (-1, r)
    | r => (1, r)
  let s1 := signAndRest.2
  let intPart := s1.takeWhile Char.isDigit
  let s2 := s1.dropWhile Char.isDigit
  let fracAndRest : Str × Str :=
    match s2 with
    | '.' :: r => (r.takeWhile Char.isDigit, r.dropWhile Char.isDigit)
    | r => ([], r)
  let fracPart := fracAndRest.1
  if intPart = [] ∧ fracPart = [] then none
  else
    let mant : ℚ :=
      signAndRest.1 * ((digitsVal (intPart ++ fracPart) : ℚ) / (10 : ℚ) ^ fracPart.length)
    match fracAndRest.2 with
    | [] => some mant
    | c :: r =>
      if c = 'e' ∨ c = 'E' then
        let esignAndRest : ℤ × Str :=
          match r with
          | '+' :: r2 => (1, r2)
          | '-' :: r2 => (-1, r2)
          | r2 => (1, r2)
        let eds := esignAndRest.2.takeWhile Char.isDigit
        if eds ≠ [] ∧ esignAndRest.2.dropWhile Char.isDigit = [] then
          some (mant * (10 : ℚ) ^ (esignAndRest.1 * (digitsVal eds : ℤ)))
        else none
      else none

/-- Embeds `models.UrgencyLevel`, the four-tier escalation literal. -/
inductive UrgencyLevel
  | self_care
  | routine
  | urgent
  | emergency
  deriving DecidableEq

/-- The literal's textual value, as a Python f-string renders it. -/
def UrgencyLevel.toStr : UrgencyLevel → Str
  | .self_care => strOf "self_care"
  | .routine => strOf "routine"
  | .urgent => strOf "urgent"
  | .emergency => strOf "emergency"

/-- A biometric mapping value: Python `float | int | str`.  `other` mirrors the
defensive final `return None` branch of `_extract_numeric` for any other type. -/
inductive BioValue
  | num (value : ℚ)
  | text (value : Str)
  | other
  deriving DecidableEq

/-- Embeds `models.SymptomReport`.  The biometrics dict is a key/value list. -/
structure SymptomReport where
  symptoms : List Str
  biometrics : List (Str × BioValue)
  duration_hours : Option ℤ
  pain_level : Option ℤ
  deriving DecidableEq

/-- The `models.SymptomReport.__post_init__` validation. -/
def SymptomReport.valid (r : SymptomReport) : Prop :=
  (∀ d, r.duration_hours = some d → 0 ≤ d) ∧
    (∀ p, r.pain_level = some p → 0 ≤ p ∧ p ≤ 10)

/-- Embeds the `health_literacy` literal of `models.UserProfile`. -/
inductive HealthLiteracy
  | basic
  | intermediate
  | advanced
  deriving DecidableEq

/-- Embeds `models.UserProfile`. -/
structure UserProfile where
  age : Option ℤ
  preferences : List Str
  medical_constraints : List Str
  chronic_conditions : List Str
  health_literacy : HealthLiteracy
  deriving DecidableEq

/-- Embeds the `role` literal of `models.ConversationTurn`. -/
inductive Role
  | user
  | assistant
  deriving DecidableEq

/-- Embeds `models.ConversationTurn`. -/
structure ConversationTurn where
  role : Role
  content : Str
  deriving DecidableEq

/-- Embeds `models.NeuroHealthRequest`. -/
structure NeuroHealthRequest where
  user_input : Str
  user_profile : UserProfile
  symptom_report : SymptomReport
  history : List ConversationTurn
  deriving DecidableEq

/-- The `models.NeuroHealthRequest.__post_init__` validation: non-empty input. -/
def NeuroHealthRequest.valid (r : NeuroHealthRequest) : Prop :=
  strip r.user_input ≠ []

/-- The distinct exception sites of the embedded code; each constructor stands
for one Python `raise` with the quoted message. -/
inductive Err
  /-- "Knowledge base JSON must contain a list of chunk objects." -/
  | notList
  /-- "Knowledge chunk at index i is not an object." -/
  | notObject (index : ℕ)
  /-- "Knowledge chunk (chunk_id or index) has invalid tags."  The message shows
  the stripped id when non-empty, otherwise the index; both are carried. -/
  | invalidTags (index : ℕ) (chunkId : Str)
  /-- "Knowledge chunk i is missing required fields." -/
  | missingFields (index : ℕ)
  /-- "Knowledge base must contain at least one chunk." -/
  | emptyCollection
  /-- "Knowledge vectors count does not match chunk count." -/
  | vectorCountMismatch
  /-- "vector dimensions must match for cosine similarity." -/
  | dimensionMismatch
  /-- "top_k must be > 0." -/
  | invalidTopK
  /-- "query must not be empty." -/
  | emptyQuery
  /-- ValueError raised by `float()` on a non-numeric string. -/
  | floatParse (value : Str)
  deriving DecidableEq

/-- Embeds `safety.EMERGENCY_KEYWORDS`.  The Python value is a set literal whose
iteration order is unspecified; it is modelled as a list in source order and
the claims about triggers are stated up to membership. -/
def EMERGENCY_KEYWORDS : List Str :=
  [strOf "chest pain", strOf "shortness of breath", strOf "severe bleeding",
   strOf "stroke", strOf "one-sided weakness", strOf "slurred speech",
   strOf "loss of consciousness", strOf "suicidal", strOf "anaphylaxis",
   strOf "seizure"]

/-- Embeds `safety.URGENT_KEYWORDS` (a set literal, modelled as for
`EMERGENCY_KEYWORDS`). -/
def URGENT_KEYWORDS : List Str :=
  [strOf "high fever", strOf "persistent vomiting", strOf "dehydration",
   strOf "wheezing", strOf "rapid heartbeat", strOf "severe headache",
   strOf "infection", strOf "painful urination"]

/-- Python `biometrics.get(key)` on the key/value list model. -/
def bioGet (biometrics : List (Str × BioValue)) (key : Str) : Option BioValue :=
  (biometrics.find? (fun p => p.1 == key)).map (·.2)

/-- Embeds `safety._extract_numeric`.  Note the source applies `float()` to any
non-empty stripped string without a guard, so a non-numeric string raises. -/
def _extract_numeric (biometrics : List (Str × BioValue)) (key : Str) :
    Except Err (Option ℚ) :=
  match bioGet biometrics key with
  | none => .ok none
  | some (.num value) => .ok (some value)
  | some (.text value) =>
    let normalized := strip value
    if normalized = [] then .ok none
    else
      match parseFloat normalized with
      | some q => .ok (some q)
      | none => .error (.floatParse normalized)
  | some .other => .ok none

/-- Embeds `safety.assess_urgency`: the rule list evaluated top-to-bottom with
the first matching rule short-circuiting.  List comprehensions over the keyword
sets become `List.filter`; `float()` failures surface through `Except`. -/
def assess_urgency (report : SymptomReport) (user_input : Str) :
    Except Err (UrgencyLevel × List Str) :=
  let combined := _normalize (joinSpace (user_input :: report.symptoms))
  let emergency_hits := EMERGENCY_KEYWORDS.filter (fun keyword => strContains combined keyword)
  if emergency_hits ≠ [] then
    .ok (.emergency, emergency_hits.map (fun keyword => strOf "keyword:" ++ keyword))
  else
    match _extract_numeric report.biometrics (strOf "oxygen_saturation") with
    | .error e => .error e
    | .ok oxygen_saturation =>
      if oxygen_saturation.any (fun v => decide (v < 92)) then
        .ok (.emergency, [strOf "biometric:low_oxygen_saturation"])
      else
        match _extract_numeric report.biometrics (strOf "temperature_c") with
        | .error e => .error e
        | .ok temperature_c =>
          if temperature_c.any (fun v => decide ((39 : ℚ) ≤ v)) then
            .ok (.urgent, [strOf "biometric:high_fever"])
          else if report.pain_level.any (fun p => decide ((7 : ℤ) ≤ p)) then
            .ok (.urgent, [strOf "pain_level:>=7"])
          else
            let urgent_hits := URGENT_KEYWORDS.filter (fun keyword => strContains combined keyword)
            if urgent_hits ≠ [] then
              .ok (.urgent, urgent_hits.map (fun keyword => strOf "keyword:" ++ keyword))
            else if report.symptoms ≠ [] ∨ strip user_input ≠ [] then
              .ok (.routine, [strOf "symptoms_present"])
            else
              .ok (.self_care, [strOf "no_risk_signal"])

/-- Embeds `safety.appointment_for_urgency`. -/
def appointment_for_urgency : UrgencyLevel → Str
  | .emergency => strOf "Go to the nearest emergency department now or call local emergency services."
  | .urgent => strOf "Book a same-day urgent care or telemedicine appointment."
  | .routine => strOf "Schedule a primary care appointment within 2-7 days."
  | .self_care => strOf "Self-care is reasonable; monitor symptoms and schedule routine care if symptoms persist."

/-- Embeds `safety.build_safety_instructions`. -/
def build_safety_instructions (urgency : UrgencyLevel) : List Str :=
  let base := [strOf "This assistant provides educational guidance and does not replace professional medical diagnosis."]
  match urgency with
  | .emergency => base ++
      [strOf "Seek emergency care immediately.",
       strOf "Do not delay care while waiting for additional online advice."]
  | .urgent => base ++
      [strOf "Seek same-day clinical evaluation.",
       strOf "Escalate to emergency care if breathing, consciousness, or severe pain worsens."]
  | .routine => base ++
      [strOf "Track symptom progression and schedule a clinician follow-up.",
       strOf "Escalate care if red-flag symptoms emerge."]
  | .self_care => base ++
      [strOf "Continue monitoring symptoms and hydration/rest routines.",
       strOf "Seek medical care if symptoms worsen or fail to improve."]

/-- Embeds `safety.build_clarifying_questions`: four conditional appends in
fixed order followed by `questions[:3]`. -/
def build_clarifying_questions (report : SymptomReport) (user_input : Str) : List Str :=
  let normalized_input := _normalize user_input
  let q1 : List Str :=
    if report.duration_hours = none then [strOf "How long have these symptoms been present?"] else []
  let q2 : List Str :=
    if report.pain_level = none ∧ strContains normalized_input (strOf "pain") then
      [strOf "On a 0-10 scale, what is your pain level right now?"]
    else []
  let q3 : List Str :=
    if strContains normalized_input (strOf "fever") ∧
        bioGet report.biometrics (strOf "temperature_c") = none then
      [strOf "Do you have a measured temperature in Celsius?"]
    else []
  let q4 : List Str :=
    if strContains normalized_input (strOf "cough") ∧
        ¬ strContains normalized_input (strOf "shortness of breath") then
      [strOf "Is the cough dry or productive, and is breathing comfortable at rest?"]
    else []
  (q1 ++ q2 ++ q3 ++ q4).take 3

/-- Sum of squares of a vector (the square of the float norm the code takes).
The code compares `math.sqrt (normSq v)` with `0.0`; in exact arithmetic
`sqrt x = 0 ↔ x = 0` for `x ≥ 0`, so the zero-norm guard is `normSq v = 0`. -/
def normSq (v : List ℚ) : ℚ := (v.map (fun value => value * value)).sum

/-- Dot product: `sum(a * b for a, b in zip(left, right))`. -/
def dotProd (left right : List ℚ) : ℚ := (List.zipWith (· * ·) left right).sum

/-- Exact representation of a cosine-similarity score: the real value is
`dot / sqrt den` where `den` is the product of the two squared norms, so that
`sqrt den = ‖left‖ * ‖right‖` exactly.  Kept symbolic so comparison of scores
is decidable. -/
structure CosScore where
  dot : ℚ
  den : ℚ
  deriving DecidableEq

/-- The real number a `CosScore` stands for. -/
noncomputable def CosScore.val (s : CosScore) : ℝ :=
  (s.dot : ℝ) / Real.sqrt (s.den : ℝ)

/-- Decidable comparison of scores; it agrees with `≤` on `CosScore.val`
whenever both `den`s are positive (theorem `cosLe_iff_val` below). -/
def CosScore.le (s t : CosScore) : Bool :=
  if s.dot < 0 then
    if t.dot < 0 then decide (t.dot * t.dot * s.den ≤ s.dot * s.dot * t.den) else true
  else
    if t.dot < 0 then false
    else decide (s.dot * s.dot * t.den ≤ t.dot * t.dot * s.den)

/-- Embeds `kb._cosine_similarity`.  The guarded float `0.0` return is the
score `⟨0, 1⟩` (value `0 / sqrt 1 = 0`); the main return `dot / (‖l‖ * ‖r‖)`
is the score `⟨dot, normSq left * normSq right⟩`. -/
def _cosine_similarity (left right : List ℚ) : Except Err CosScore :=
  if left.length ≠ right.length then .error .dimensionMismatch
  else
    let left_norm_sq := normSq left
    let right_norm_sq := normSq right
    if left_norm_sq = 0 ∨ right_norm_sq = 0 then .ok ⟨0, 1⟩
    else .ok ⟨dotProd left right, left_norm_sq * right_norm_sq⟩

/-- JSON values as decoded by `json.loads`.  Number literals are modelled as
integers; no claim involves float-valued JSON fields. -/
inductive Json
  | null
  | bool (b : Bool)
  | int (z : ℤ)
  | str (s : Str)
  | arr (items : List Json)
  | obj (fields : List (Str × Json))

/-- Decimal rendering of a natural number. -/
def natToStr (n : ℕ) : Str := Nat.toDigits 10 n

/-- Python `str()` of an int. -/
def intToStr (z : ℤ) : Str :=
  if z < 0 then '-' :: natToStr z.natAbs else natToStr z.toNat

mutual

/-- Python `repr()` of a JSON-decoded value, used inside container renderings
(strings get quotes there). -/
def pyRepr : Json → Str
  | .null => strOf "None"
  | .bool true => strOf "True"
  | .bool false => strOf "False"
  | .int z => intToStr z
  | .str s => '\'' :: (s ++ ['\''])
  | .arr items => '[' :: (pyReprList items ++ [']'])
  | .obj fields => '\x7b' :: (pyReprFields fields ++ ['\x7d'])

/-- Comma-joined `repr`s of list items. -/
def pyReprList : List Json → Str
  | [] => []
  | [j] => pyRepr j
  | j :: rest => pyRepr j ++ strOf ", " ++ pyReprList rest

/-- Comma-joined `key: value` renderings of object fields. -/
def pyReprFields : List (Str × Json) → Str
  | [] => []
  | [(k, j)] => ('\'' :: (k ++ ['\''])) ++ strOf ": " ++ pyRepr j
  | (k, j) :: rest =>
    ('\'' :: (k ++ ['\''])) ++ strOf ": " ++ pyRepr j ++ strOf ", " ++ pyReprFields rest

end

/-- Python `str()` of a JSON-decoded value (identity on strings). -/
def pyStr : Json → Str
  | .str s => s
  | j => pyRepr j

/-- Python `item.get(key, dflt)` on a decoded JSON object.  `json.loads` keeps
the last duplicate key, hence the reversed search. -/
def objGet (fields : List (Str × Json)) (key : Str) (dflt : Json) : Json :=
  ((fields.reverse.find? (fun p => p.1 == key)).map (·.2)).getD dflt

/-- Embeds `models.KnowledgeChunk`. -/
structure KnowledgeChunk where
  id : Str
  title : Str
  content : Str
  source : Str
  tags : List Str
  deriving DecidableEq

/-- One iteration of the `load_knowledge_chunks` validation loop, for the entry
at 1-based `index`. -/
def loadEntry (index : ℕ) (item : Json) : Except Err KnowledgeChunk :=
  match item with
  | .obj fields =>
    let chunk_id := strip (pyStr (objGet fields (strOf "id") (.str [])))
    let title := strip (pyStr (objGet fields (strOf "title") (.str [])))
    let content := strip (pyStr (objGet fields (strOf "content") (.str [])))
    let source := strip (pyStr (objGet fields (strOf "source") (.str [])))
    match objGet fields (strOf "tags") (.arr []) with
    | .arr tagItems =>
      let normalized_tags := (tagItems.map (fun tag => strip (pyStr tag))).filter (fun t => t ≠ [])
      if chunk_id = [] ∨ title = [] ∨ content = [] ∨ source = [] then
        .error (.missingFields index)
      else .ok ⟨chunk_id, title, content, source, normalized_tags⟩
    | _ => .error (.invalidTags index chunk_id)
  | _ => .error (.notObject index)

/-- The `enumerate(raw_data, start=index)` loop of `load_knowledge_chunks`. -/
def loadEntries (index : ℕ) : List Json → Except Err (List KnowledgeChunk)
  | [] => .ok []
  | item :: rest =>
    match loadEntry index item with
    | .error e => .error e
    | .ok c =>
      match loadEntries (index + 1) rest with
      | .error e => .error e
      | .ok cs => .ok (c :: cs)

/-- Embeds `kb.load_knowledge_chunks` on an already-decoded JSON value (file
reading and JSON parsing are I/O outside the embedded core). -/
def load_knowledge_chunks (raw_data : Json) : Except Err (List KnowledgeChunk) :=
  match raw_data with
  | .arr items =>
    match loadEntries 1 items with
    | .error e => .error e
    | .ok chunks => if chunks = [] then .error .emptyCollection else .ok chunks
  | _ => .error .notList

/-- Embeds `models.RetrievedChunk` (a `KnowledgeChunk` plus a score). -/
structure RetrievedChunk where
  id : Str
  title : Str
  content : Str
  source : Str
  tags : List Str
  score : CosScore
  deriving DecidableEq

/-- Forget the score. -/
def RetrievedChunk.toChunk (c : RetrievedChunk) : KnowledgeChunk :=
  ⟨c.id, c.title, c.content, c.source, c.tags⟩

/-- Embeds `kb.KnowledgeIndex`: parallel chunk/vector sequences. -/
structure KnowledgeIndex where
  chunks : List KnowledgeChunk
  vectors : List (List ℚ)
  deriving DecidableEq

/-- The vector-count check and construction at the end of
`KnowledgeIndex.build`. -/
def KnowledgeIndex.ofChunks (chunks : List KnowledgeChunk) (vectors : List (List ℚ)) :
    Except Err KnowledgeIndex :=
  if vectors.length ≠ chunks.length then .error .vectorCountMismatch
  else .ok ⟨chunks, vectors⟩

/-- Embeds `kb.KnowledgeIndex.build`: load, embed `"title\ncontent"` per chunk
in one batch call, then check the returned vector count. -/
def KnowledgeIndex.build (raw_data : Json) (embedTexts : List Str → List (List ℚ)) :
    Except Err KnowledgeIndex :=
  match load_knowledge_chunks raw_data with
  | .error e => .error e
  | .ok chunks =>
    KnowledgeIndex.ofChunks chunks
      (embedTexts (chunks.map (fun chunk => chunk.title ++ '\n' :: chunk.content)))

/-- Stable insertion: place `a` before the first `b` with `ge a b = true`.
When inserting an earlier element into the sorted list of later ones, ties
(`ge` true both ways) keep the earlier element first — the stability semantics
of Python's `list.sort`. -/
def insB {α : Type} (ge : α → α → Bool) (a : α) : List α → List α
  | [] => [a]
  | b :: l => if ge a b then a :: b :: l else b :: insB ge a l

/-- Stable sort by the `ge` comparison (insertion sort). -/
def sortByB {α : Type} (ge : α → α → Bool) : List α → List α
  | [] => []
  | a :: l => insB ge a (sortByB ge l)

/-- The scoring loop of `KnowledgeIndex.retrieve`: one `RetrievedChunk` per
stored (chunk, vector) pair, failing at the first dimension mismatch. -/
def scoreAll (query_vector : List ℚ) :
    List (KnowledgeChunk × List ℚ) → Except Err (List RetrievedChunk)
  | [] => .ok []
  | (chunk, vector) :: rest =>
    match _cosine_similarity query_vector vector with
    | .error e => .error e
    | .ok score =>
      match scoreAll query_vector rest with
      | .error e => .error e
      | .ok scored =>
        .ok (⟨chunk.id, chunk.title, chunk.content, chunk.source, chunk.tags, score⟩ :: scored)

/-- The comparison of `scored.sort(key=lambda item: item.score, reverse=True)`:
`a` may precede `b` iff `score b ≤ score a`. -/
def scoreGe (a b : RetrievedChunk) : Bool := CosScore.le b.score a.score

/-- Embeds `kb.KnowledgeIndex.retrieve`.  The second component counts
invocations of the `embed_query` collaborator (0 when validation fails before
the embedding call, 1 afterwards). -/
def KnowledgeIndex.retrieve (idx : KnowledgeIndex) (query : Str)
    (embedQuery : Str → List ℚ) (top_k : ℤ) :
    Except Err (List RetrievedChunk) × ℕ :=
  if top_k ≤ 0 then (.error .invalidTopK, 0)
  else if strip query = [] then (.error .emptyQuery, 0)
  else
    match scoreAll (embedQuery query) (idx.chunks.zip idx.vectors) with
    | .error e => (.error e, 1)
    | .ok scored => (.ok ((sortByB scoreGe scored).take top_k.toNat), 1)

/-- Python string comparison, i.e. code-point lexicographic order. -/
def strLe (a b : Str) : Bool := decide (a ≤ b)

/-- Embeds `sorted({chunk.source for chunk in retrieved})`: the set becomes
deduplication, then an ascending sort. -/
def sortedSources (retrieved : List RetrievedChunk) : List Str :=
  sortByB strLe ((retrieved.map (fun chunk => chunk.source)).dedup)

/-- The textual value of the health-literacy literal. -/
def HealthLiteracy.toStr : HealthLiteracy → Str
  | .basic => strOf "basic"
  | .intermediate => strOf "intermediate"
  | .advanced => strOf "advanced"

/-- The textual value of the role literal. -/
def Role.toStr : Role → Str
  | .user => strOf "user"
  | .assistant => strOf "assistant"

/-- Rendering of a rational inside the JSON blobs of the prompt.  Python prints
floats in decimal; the textual format is abstracted as `num/den` (no claim
inspects prompt text). -/
def ratToStr (q : ℚ) : Str := intToStr q.num ++ '/' :: natToStr q.den

/-- JSON string quoting (escape sequences abstracted). -/
def quoteStr (s : Str) : Str := '"' :: (s ++ ['"'])

/-- JSON rendering of a list of strings. -/
def renderStrList (l : List Str) : Str :=
  '[' :: (List.intercalate (strOf ", ") (l.map quoteStr) ++ [']'])

/-- JSON rendering of an optional integer. -/
def renderOptInt : Option ℤ → Str
  | none => strOf "null"
  | some z => intToStr z

/-- JSON rendering of a biometric value. -/
def renderBio : BioValue → Str
  | .num q => ratToStr q
  | .text s => quoteStr s
  | .other => strOf "null"

/-- Modelled from `json.dumps(asdict(request.user_profile), indent=2)` in
`prompts.build_reasoning_prompt`; indentation is abstracted to one line. -/
def profileJson (p : UserProfile) : Str :=
  strOf "\x7b\"age\": " ++ renderOptInt p.age ++
  strOf ", \"preferences\": " ++ renderStrList p.preferences ++
  strOf ", \"medical_constraints\": " ++ renderStrList p.medical_constraints ++
  strOf ", \"chronic_conditions\": " ++ renderStrList p.chronic_conditions ++
  strOf ", \"health_literacy\": " ++ quoteStr p.health_literacy.toStr ++ strOf "\x7d"

/-- Modelled from `json.dumps(asdict(request.symptom_report), indent=2)`. -/
def symptomJson (r : SymptomReport) : Str :=
  strOf "\x7b\"symptoms\": " ++ renderStrList r.symptoms ++
  strOf ", \"biometrics\": \x7b" ++
  List.intercalate (strOf ", ")
    (r.biometrics.map (fun kv => quoteStr kv.1 ++ strOf ": " ++ renderBio kv.2)) ++
  strOf "\x7d, \"duration_hours\": " ++ renderOptInt r.duration_hours ++
  strOf ", \"pain_level\": " ++ renderOptInt r.pain_level ++ strOf "\x7d"

/-- Modelled from `json.dumps([asdict(turn) for turn in request.history], indent=2)`. -/
def historyJson (history : List ConversationTurn) : Str :=
  '[' ::
    (List.intercalate (strOf ", ")
      (history.map (fun turn =>
        strOf "\x7b\"role\": " ++ quoteStr turn.role.toStr ++
        strOf ", \"content\": " ++ quoteStr turn.content ++ strOf "\x7d")) ++ [']'])

/-- Embeds `prompts.build_system_instruction`. -/
def build_system_instruction : Str :=
  strOf "You are NeuroHealth, a clinically cautious AI health assistant. Ground recommendations in supplied medical snippets, adapt language to user literacy, include nutrition and planning advice only when contextually relevant, and avoid definitive diagnoses. Always prioritize patient safety and include explicit escalation cues."

/-- Embeds `prompts.build_reasoning_prompt`: the f-string template filled with
the JSON blobs, the rendered retrieved chunks, and the policy outputs, finally
stripped. -/
def build_reasoning_prompt (request : NeuroHealthRequest)
    (retrieved_chunks : List RetrievedChunk) (urgency : UrgencyLevel)
    (appointment_recommendation : Str) (safety_instructions : List Str)
    (clarifying_questions : List Str) : Str :=
  let knowledge_context :=
    List.intercalate (strOf "\n")
      (retrieved_chunks.map (fun chunk =>
        strOf "- [" ++ chunk.source ++ strOf "] " ++ chunk.title ++ strOf ": " ++ chunk.content))
  let clarifications :=
    if clarifying_questions = [] then strOf "- None"
    else List.intercalate (strOf "\n") (clarifying_questions.map (fun q => strOf "- " ++ q))
  let safety_text :=
    List.intercalate (strOf "\n") (safety_instructions.map (fun i => strOf "- " ++ i))
  strip
    (strOf "\nUser profile:\n" ++ profileJson request.user_profile ++
     strOf "\n\nSymptom report:\n" ++ symptomJson request.symptom_report ++
     strOf "\n\nConversation history:\n" ++ historyJson request.history ++
     strOf "\n\nLatest user message:\n" ++ request.user_input ++
     strOf "\n\nRetrieved validated health knowledge:\n" ++ knowledge_context ++
     strOf "\n\nCurrent urgency label: " ++ urgency.toStr ++
     strOf "\nProposed appointment recommendation: " ++ appointment_recommendation ++
     strOf "\n\nSafety instructions to include:\n" ++ safety_text ++
     strOf "\n\nClarifying questions to ask if needed:\n" ++ clarifications ++
     strOf "\n\nProduce a concise, user-friendly response with this structure:\n1) Personalized guidance summary\n2) Nutrition/planning advice relevant to profile + symptoms\n3) Appointment recommendation with urgency rationale\n4) Safety instructions and escalation cues\n5) Optional clarifying questions (only if truly needed)\n")

/-- Embeds `models.Recommendation`. -/
structure Recommendation where
  assistant_message : Str
  urgency : UrgencyLevel
  appointment_recommendation : Str
  safety_instructions : List Str
  sources : List Str
  reasoning_notes : List Str
  clarifying_questions : List Str
  needs_emergency : Bool
  deriving DecidableEq

/-- The fixed emergency message of `engine.NeuroHealthEngine.generate`. -/
def emergencyMessage : Str :=
  strOf "Your symptoms may indicate a medical emergency. Please seek immediate emergency care now."

/-- Embeds `engine.NeuroHealthEngine.generate`.  The collaborators are passed
as functions (`embed_query` of the embedding client, `generate` of the LLM
client); the result carries the pair (embed_query invocations, llm
invocations).  A Python raise anywhere propagates as `.error`. -/
def NeuroHealthEngine.generate (idx : KnowledgeIndex) (embedQuery : Str → List ℚ)
    (llm : Str → Str → Str) (request : NeuroHealthRequest) :
    Except Err Recommendation × ℕ × ℕ :=
  match assess_urgency request.symptom_report request.user_input with
  | .error e => (.error e, 0, 0)
  | .ok (urgency, triggers) =>
    let appointment := appointment_for_urgency urgency
    let safety := build_safety_instructions urgency
    let clarifying_questions :=
      build_clarifying_questions request.symptom_report request.user_input
    let reasoning_notes :=
      (strOf "urgency:" ++ urgency.toStr) ::
        triggers.map (fun trigger => strOf "trigger:" ++ trigger)
    if urgency = .emergency then
      (.ok ⟨emergencyMessage, urgency, appointment, safety, [], reasoning_notes, [], true⟩, 0, 0)
    else
      match KnowledgeIndex.retrieve idx request.user_input embedQuery 4 with
      | (.error e, n) => (.error e, n, 0)
      | (.ok retrieved, n) =>
        let prompt :=
          build_reasoning_prompt request retrieved urgency appointment safety clarifying_questions
        let generated := llm prompt build_system_instruction
        (.ok ⟨generated, urgency, appointment, safety, sortedSources retrieved,
              reasoning_notes, clarifying_questions, false⟩, n, 1)

/-- Modelled from the spec (§4.4) wording of the clarifying-question policy: an
ordered list of condition/question pairs, filtered by condition, truncated to
three.  Compared against the code translation in claim C8. -/
def clarifyingSpec (report : SymptomReport) (user_input : Str) : List Str :=
  let normalized_input := _normalize user_input
  let candidates : List (Bool × Str) :=
    [(decide (report.duration_hours = none),
      strOf "How long have these symptoms been present?"),
     (decide (report.pain_level = none) && strContains normalized_input (strOf "pain"),
      strOf "On a 0-10 scale, what is your pain level right now?"),
     (strContains normalized_input (strOf "fever") &&
        decide (bioGet report.biometrics (strOf "temperature_c") = none),
      strOf "Do you have a measured temperature in Celsius?"),
     (strContains normalized_input (strOf "cough") &&
        ! strContains normalized_input (strOf "shortness of breath"),
      strOf "Is the cough dry or productive, and is breathing comfortable at rest?")]
  ((candidates.filter (fun c => c.1)).map (fun c => c.2)).take 3

/-- Success condition for one loader entry in the amended claim C9: an object
whose id/title/content/source coerce (`str()`) to non-empty strings after
trimming, and whose tags field, when present, is a JSON list. -/
def validEntryB (item : Json) : Bool :=
  match item with
  | .obj fields =>
    decide (strip (pyStr (objGet fields (strOf "id") (.str []))) ≠ []) &&
    decide (strip (pyStr (objGet fields (strOf "title") (.str []))) ≠ []) &&
    decide (strip (pyStr (objGet fields (strOf "content") (.str []))) ≠ []) &&
    decide (strip (pyStr (objGet fields (strOf "source") (.str []))) ≠ []) &&
    (match objGet fields (strOf "tags") (.arr []) with
     | .arr _ => true
     | _ => false)
  | _ => false

/-- Success condition for the collection in the amended claim C9. -/
def validCollectionB (raw_data : Json) : Bool :=
  match raw_data with
  | .arr items => !items.isEmpty && items.all validEntryB
  | _ => false

/-- The per-entry success condition exactly as claim C9 states it: the four
required fields are non-empty strings after trimming (no str() coercion, no
condition on tags). -/
def claimEntryB (item : Json) : Bool :=
  match item with
  | .obj fields =>
    (match objGet fields (strOf "id") (.str []) with
     | .str s => decide (strip s ≠ [])
     | _ => false) &&
    (match objGet fields (strOf "title") (.str []) with
     | .str s => decide (strip s ≠ [])
     | _ => false) &&
    (match objGet fields (strOf "content") (.str []) with
     | .str s => decide (strip s ≠ [])
     | _ => false) &&
    (match objGet fields (strOf "source") (.str []) with
     | .str s => decide (strip s ≠ [])
     | _ => false)
  | _ => false

/-- The collection success condition exactly as claim C9 states it. -/
def claimCollectionB (raw_data : Json) : Bool :=
  match raw_data with
  | .arr items => !items.isEmpty && items.all claimEntryB
  | _ => false

/-- A biometric value on which the code's `float()` call cannot raise: numeric,
absent-like, or a string that is empty after trimming or parses as a float. -/
def BioValue.parses : BioValue → Prop
  | .num _ => True
  | .text s => strip s = [] ∨ (parseFloat (strip s)).isSome = true
  | .other => True

/-- A collection satisfying claim C9's stated success condition whose tags
field is not a list: the loader rejects it. -/
def c9CounterJson : Json :=
  .arr [.obj [(strOf "id", .str (strOf "a")), (strOf "title", .str (strOf "b")),
    (strOf "content", .str (strOf "c")), (strOf "source", .str (strOf "d")),
    (strOf "tags", .int 5)]]

/-- A collection whose single entry has a numeric id field: it fails claim
C9's stated success condition (the field is not a string) yet it loads
successfully through the `str()` coercion. -/
def c9CoercedJson : Json :=
  .arr [.obj [(strOf "id", .int 5), (strOf "title", .str (strOf "b")),
    (strOf "content", .str (strOf "c")), (strOf "source", .str (strOf "d"))]]

/-- An entry that is an object whose tags value is a list (so the invalid-tags
check passes) but with some required field empty after coercion and trimming:
exactly the condition of the missing-required-fields raise, whose message
names the entry's index. -/
def entryMissingFieldsB (item : Json) : Bool :=
  match item with
  | .obj fields =>
    (match objGet fields (strOf "tags") (.arr []) with
     | .arr _ => true
     | _ => false) &&
    (decide (strip (pyStr (objGet fields (strOf "id") (.str []))) = []) ||
     decide (strip (pyStr (objGet fields (strOf "title") (.str []))) = []) ||
     decide (strip (pyStr (objGet fields (strOf "content") (.str []))) = []) ||
     decide (strip (pyStr (objGet fields (strOf "source") (.str []))) = []))
  | _ => false

/-- Inserting splits the list at the insertion point. -/
theorem insB_split {α : Type} (ge : α → α → Bool) (a : α) (l : List α) :
    ∃ l₁ l₂, l = l₁ ++ l₂ ∧ insB ge a l = l₁ ++ a :: l₂ := by
  induction l with
  | nil => exact ⟨[], [], rfl, rfl⟩
  | cons b t ih =>
    by_cases h : ge a b
    · exact ⟨[], b :: t, rfl, by simp [insB, h]⟩
    · obtain ⟨l₁, l₂, he, hi⟩ := ih
      exact ⟨b :: l₁, l₂, by simp [he], by simp [insB, h, hi]⟩

/-- Insertion permutes. -/
theorem insB_perm {α : Type} (ge : α → α → Bool) (a : α) (l : List α) :
    List.Perm (insB ge a l) (a :: l) := by
  obtain ⟨l₁, l₂, he, hi⟩ := insB_split ge a l
  rw [hi, he]
  exact List.perm_middle

/-- The stable sort permutes. -/
theorem sortByB_perm {α : Type} (ge : α → α → Bool) (l : List α) :
    List.Perm (sortByB ge l) l := by
  induction l with
  | nil => exact List.Perm.nil
  | cons a t ih => exact (insB_perm ge a (sortByB ge t)).trans (ih.cons a)

/-- Insertion into a `ge`-ordered list stays ordered, given totality and
transitivity on the elements involved. -/
theorem insB_pairwise {α : Type} {ge : α → α → Bool} {a : α} {l : List α}
    (htot : ∀ b ∈ l, ge a b = true ∨ ge b a = true)
    (htr : ∀ b ∈ l, ∀ c ∈ l, ge a b = true → ge b c = true → ge a c = true)
    (hl : l.Pairwise (fun x y => ge x y = true)) :
    (insB ge a l).Pairwise (fun x y => ge x y = true) := by
  induction l with
  | nil => simp [insB]
  | cons b t ih =>
    rw [List.pairwise_cons] at hl
    by_cases h : ge a b = true
    · rw [show insB ge a (b :: t) = a :: b :: t by simp [insB, h]]
      refine List.pairwise_cons.mpr ⟨?_, List.pairwise_cons.mpr ⟨hl.1, hl.2⟩⟩
      intro x hx
      rcases List.mem_cons.mp hx with hxb | hxt
      · exact hxb ▸ h
      · exact htr b (List.mem_cons_self b t) x (List.mem_cons_of_mem b hxt) h (hl.1 x hxt)
    · rw [show insB ge a (b :: t) = b :: insB ge a t by simp [insB, h]]
      refine List.pairwise_cons.mpr ⟨?_, ?_⟩
      · intro x hx
        rcases List.mem_cons.mp ((insB_perm ge a t).mem_iff.mp hx) with hxa | hxt
        · subst hxa
          rcases htot b (List.mem_cons_self b t) with hab2 | hba
          · exact absurd hab2 h
          · exact hba
        · exact hl.1 x hxt
      · exact ih (fun c hc => htot c (List.mem_cons_of_mem b hc))
          (fun c hc d hd => htr c (List.mem_cons_of_mem b hc) d (List.mem_cons_of_mem b hd))
          hl.2

/-- The stable sort is `ge`-ordered, given totality and transitivity on the
list elements. -/
theorem sortByB_pairwise {α : Type} {ge : α → α → Bool} {l : List α}
    (htot : ∀ a ∈ l, ∀ b ∈ l, ge a b = true ∨ ge b a = true)
    (htr : ∀ a ∈ l, ∀ b ∈ l, ∀ c ∈ l, ge a b = true → ge b c = true → ge a c = true) :
    (sortByB ge l).Pairwise (fun x y => ge x y = true) := by
  induction l with
  | nil => simp [sortByB]
  | cons a t ih =>
    rw [sortByB]
    have hmem : ∀ b ∈ sortByB ge t, b ∈ t := fun b hb => (sortByB_perm ge t).mem_iff.mp hb
    refine insB_pairwise ?_ ?_ ?_
    · exact fun b hb =>
        htot a (List.mem_cons_self a t) b (List.mem_cons_of_mem a (hmem b hb))
    · exact fun b hb c hc hab hbc =>
        htr a (List.mem_cons_self a t) b (List.mem_cons_of_mem a (hmem b hb))
          c (List.mem_cons_of_mem a (hmem c hc)) hab hbc
    · exact ih (fun x hx y hy => htot x (List.mem_cons_of_mem a hx) y (List.mem_cons_of_mem a hy))
        (fun x hx y hy z hz => htr x (List.mem_cons_of_mem a hx) y (List.mem_cons_of_mem a hy)
          z (List.mem_cons_of_mem a hz))

/-- Inserting an element the filter rejects does not change the filter. -/
theorem insB_filter_neg {α : Type} (ge : α → α → Bool) (p : α → Bool) {a : α}
    (hpa : p a = false) (l : List α) :
    (insB ge a l).filter p = l.filter p := by
  obtain ⟨l₁, l₂, he, hi⟩ := insB_split ge a l
  rw [hi, he]
  simp [List.filter_append, hpa]

/-- Inserting an element the filter keeps, when it stops before every kept
element, prepends it to the filter. -/
theorem insB_filter_pos {α : Type} (ge : α → α → Bool) (p : α → Bool) {a : α}
    (hpa : p a = true) (l : List α)
    (h : ∀ b ∈ l, p b = true → ge a b = true) :
    (insB ge a l).filter p = a :: l.filter p := by
  induction l with
  | nil => simp [insB, hpa]
  | cons b t ih =>
    by_cases hab : ge a b = true
    · rw [show insB ge a (b :: t) = a :: b :: t by simp [insB, hab]]
      simp [List.filter_cons, hpa]
    · rw [show insB ge a (b :: t) = b :: insB ge a t by simp [insB, hab]]
      have hpb : p b = false := by
        cases hpb : p b with
        | false => rfl
        | true => exact absurd (h b (List.mem_cons_self b t) hpb) hab
      rw [List.filter_cons, List.filter_cons]
      simp only [hpb, cond_false]
      exact ih (fun c hc => h c (List.mem_cons_of_mem b hc))

/-- Stability of the sort: when all kept elements compare `ge` both ways
(a tie class), the filtered subsequence is unchanged by sorting. -/
theorem sortByB_filter {α : Type} (ge : α → α → Bool) (p : α → Bool) (l : List α)
    (htie : ∀ a ∈ l, ∀ b ∈ l, p a = true → p b = true → ge a b = true) :
    (sortByB ge l).filter p = l.filter p := by
  induction l with
  | nil => rfl
  | cons a t ih =>
    rw [sortByB]
    have ih2 := ih (fun x hx y hy => htie x (List.mem_cons_of_mem a hx) y (List.mem_cons_of_mem a hy))
    by_cases hpa : p a = true
    · rw [insB_filter_pos ge p hpa (sortByB ge t)
        (fun b hb hpb => htie a (List.mem_cons_self a t)
          b (List.mem_cons_of_mem a ((sortByB_perm ge t).mem_iff.mp hb)) hpa hpb)]
      rw [ih2, List.filter_cons]
      simp [hpa]
    · have hpa' : p a = false := by
        cases hpb : p a with
        | false => rfl
        | true => exact absurd hpb hpa
      rw [insB_filter_neg ge p hpa' (sortByB ge t), ih2, List.filter_cons]
      simp [hpa']

/-- The decidable score comparison agrees with the real order of score values
whenever both denominators are positive (which holds for every score the code
produces). -/
theorem cosLe_iff_val (s t : CosScore) (hs : 0 < s.den) (ht : 0 < t.den) :
    CosScore.le s t = true ↔ CosScore.val s ≤ CosScore.val t := by
  have hsR : (0:ℝ) < (s.den : ℝ) := by exact_mod_cast hs
  have htR : (0:ℝ) < (t.den : ℝ) := by exact_mod_cast ht
  have hss : (0:ℝ) < Real.sqrt (s.den : ℝ) := Real.sqrt_pos.mpr hsR
  have hts : (0:ℝ) < Real.sqrt (t.den : ℝ) := Real.sqrt_pos.mpr htR
  have hsq : Real.sqrt (s.den:ℝ) * Real.sqrt (s.den:ℝ) = (s.den:ℝ) := Real.mul_self_sqrt hsR.le
  have htq : Real.sqrt (t.den:ℝ) * Real.sqrt (t.den:ℝ) = (t.den:ℝ) := Real.mul_self_sqrt htR.le
  rw [CosScore.val, CosScore.val, div_le_div_iff₀ hss hts]
  unfold CosScore.le
  by_cases h1 : s.dot < 0 <;> by_cases h2 : t.dot < 0
  · -- both negative
    rw [if_pos h1, if_pos h2, decide_eq_true_eq]
    have hA : ((s.dot : ℝ)) < 0 := by exact_mod_cast h1
    have hB : ((t.dot : ℝ)) < 0 := by exact_mod_cast h2
    constructor
    · intro h
      have h' : (t.dot:ℝ) * (t.dot:ℝ) * (s.den:ℝ) ≤ (s.dot:ℝ) * (s.dot:ℝ) * (t.den:ℝ) := by
        exact_mod_cast h
      nlinarith [mul_neg_of_neg_of_pos hA hts, mul_neg_of_neg_of_pos hB hss, hsq, htq]
    · intro h
      have h' : (t.dot:ℝ) * (t.dot:ℝ) * (s.den:ℝ) ≤ (s.dot:ℝ) * (s.dot:ℝ) * (t.den:ℝ) := by
        nlinarith [mul_neg_of_neg_of_pos hA hts, mul_neg_of_neg_of_pos hB hss, hsq, htq]
      exact_mod_cast h'
  · -- s negative, t nonneg
    rw [if_pos h1, if_neg h2]
    have hA : ((s.dot : ℝ)) < 0 := by exact_mod_cast h1
    have hB : (0:ℝ) ≤ ((t.dot : ℝ)) := by exact_mod_cast not_lt.mp h2
    exact iff_of_true rfl (le_trans (mul_neg_of_neg_of_pos hA hts).le (mul_nonneg hB hss.le))
  · -- s nonneg, t negative
    rw [if_neg h1, if_pos h2]
    have hA : (0:ℝ) ≤ ((s.dot : ℝ)) := by exact_mod_cast not_lt.mp h1
    have hB : ((t.dot : ℝ)) < 0 := by exact_mod_cast h2
    exact iff_of_false (by simp)
      (not_le.mpr (lt_of_lt_of_le (mul_neg_of_neg_of_pos hB hss) (mul_nonneg hA hts.le)))
  · -- both nonneg
    rw [if_neg h1, if_neg h2, decide_eq_true_eq]
    have hA : (0:ℝ) ≤ ((s.dot : ℝ)) := by exact_mod_cast not_lt.mp h1
    have hB : (0:ℝ) ≤ ((t.dot : ℝ)) := by exact_mod_cast not_lt.mp h2
    constructor
    · intro h
      have h' : (s.dot:ℝ) * (s.dot:ℝ) * (t.den:ℝ) ≤ (t.dot:ℝ) * (t.dot:ℝ) * (s.den:ℝ) := by
        exact_mod_cast h
      have := (mul_self_le_mul_self_iff (mul_nonneg hA hts.le) (mul_nonneg hB hss.le)).mpr
      apply this
      nlinarith [hsq, htq]
    · intro h
      have h2' : (s.dot:ℝ) * Real.sqrt (t.den:ℝ) * ((s.dot:ℝ) * Real.sqrt (t.den:ℝ)) ≤
          (t.dot:ℝ) * Real.sqrt (s.den:ℝ) * ((t.dot:ℝ) * Real.sqrt (s.den:ℝ)) :=
        (mul_self_le_mul_self_iff (mul_nonneg hA hts.le) (mul_nonneg hB hss.le)).mp h
      have h' : (s.dot:ℝ) * (s.dot:ℝ) * (t.den:ℝ) ≤ (t.dot:ℝ) * (t.dot:ℝ) * (s.den:ℝ) := by
        nlinarith [hsq, htq]
      exact_mod_cast h'

/-- Totality of the score comparison on positive-denominator scores. -/
theorem cosLe_total {s t : CosScore} (hs : 0 < s.den) (ht : 0 < t.den) :
    CosScore.le s t = true ∨ CosScore.le t s = true := by
  rcases le_total (CosScore.val s) (CosScore.val t) with h | h
  · exact Or.inl ((cosLe_iff_val s t hs ht).mpr h)
  · exact Or.inr ((cosLe_iff_val t s ht hs).mpr h)

/-- Transitivity of the score comparison on positive-denominator scores. -/
theorem cosLe_trans {s t u : CosScore} (hs : 0 < s.den) (ht : 0 < t.den) (hu : 0 < u.den)
    (h1 : CosScore.le s t = true) (h2 : CosScore.le t u = true) :
    CosScore.le s u = true :=
  (cosLe_iff_val s u hs hu).mpr
    (le_trans ((cosLe_iff_val s t hs ht).mp h1) ((cosLe_iff_val t u ht hu).mp h2))

/-- A sum of squares is non-negative. -/
theorem normSq_nonneg (v : List ℚ) : 0 ≤ normSq v := by
  apply List.sum_nonneg
  intro x hx
  obtain ⟨y, _, rfl⟩ := List.mem_map.mp hx
  exact mul_self_nonneg y

/-- Every score `_cosine_similarity` returns has a positive denominator. -/
theorem cosine_den_pos {l r : List ℚ} {s : CosScore}
    (h : _cosine_similarity l r = .ok s) : 0 < s.den := by
  unfold _cosine_similarity at h
  split at h
  · exact absurd h (by simp)
  · dsimp only at h
    split at h
    · cases h
      norm_num
    · cases h
      rename_i hguard
      push_neg at hguard
      exact mul_pos (lt_of_le_of_ne (normSq_nonneg l) (Ne.symm hguard.1))
        (lt_of_le_of_ne (normSq_nonneg r) (Ne.symm hguard.2))

/-- Totality of the Python string order. -/
theorem strLe_total (a b : Str) : strLe a b = true ∨ strLe b a = true := by
  unfold strLe
  rcases le_total a b with h | h
  · exact Or.inl (decide_eq_true h)
  · exact Or.inr (decide_eq_true h)

/-- Transitivity of the Python string order. -/
theorem strLe_trans {a b c : Str} (h1 : strLe a b = true) (h2 : strLe b c = true) :
    strLe a c = true := by
  unfold strLe at *
  exact decide_eq_true (le_trans (of_decide_eq_true h1) (of_decide_eq_true h2))

/-- `scoreAll` succeeds when every stored vector has the query dimension. -/
theorem scoreAll_ok {qv : List ℚ} {l : List (KnowledgeChunk × List ℚ)}
    (h : ∀ p ∈ l, (p.2).length = qv.length) :
    ∃ scored, scoreAll qv l = .ok scored := by
  induction l with
  | nil => exact ⟨[], rfl⟩
  | cons p t ih =>
    obtain ⟨chunk, vector⟩ := p
    have hv : vector.length = qv.length := h _ (List.mem_cons_self _ t)
    obtain ⟨scored, hs⟩ := ih (fun q hq => h q (List.mem_cons_of_mem _ hq))
    have hcos : ∃ s, _cosine_similarity qv vector = .ok s := by
      unfold _cosine_similarity
      rw [if_neg (by simp [hv])]
      dsimp only
      split
      · exact ⟨_, rfl⟩
      · exact ⟨_, rfl⟩
    obtain ⟨s, hcs⟩ := hcos
    exact ⟨_, by rw [scoreAll, hcs, hs]⟩

/-- A successful `scoreAll` scores the stored documents 1:1 in order, and every
produced score has a positive denominator. -/
theorem scoreAll_props {qv : List ℚ} {l : List (KnowledgeChunk × List ℚ)}
    {scored : List RetrievedChunk}
    (h : scoreAll qv l = .ok scored) :
    scored.map RetrievedChunk.toChunk = l.map Prod.fst ∧
      (∀ c ∈ scored, 0 < c.score.den) := by
  induction l generalizing scored with
  | nil =>
    cases h
    exact ⟨rfl, by simp⟩
  | cons p t ih =>
    obtain ⟨chunk, vector⟩ := p
    cases hcs : _cosine_similarity qv vector with
    | error e =>
      rw [scoreAll, hcs] at h
      exact absurd h (by simp)
    | ok score =>
      cases hrest : scoreAll qv t with
      | error e =>
        rw [scoreAll, hcs, hrest] at h
        exact absurd h (by simp)
      | ok rest =>
        rw [scoreAll, hcs, hrest] at h
        dsimp only at h
        cases h
        obtain ⟨hmap, hden⟩ := ih hrest
        constructor
        · simp [List.map_cons, hmap, RetrievedChunk.toChunk]
        · intro c hc
          rcases List.mem_cons.mp hc with hch | hct
          · rw [hch]
            exact cosine_den_pos hcs
          · exact hden c hct

/-- Unfolding of a successful `retrieve`: sort the scored list descending,
take `top_k`, one embedding call. -/
theorem retrieve_eq {idx : KnowledgeIndex} {query : Str} {embedQuery : Str → List ℚ}
    {top_k : ℤ} {scored : List RetrievedChunk}
    (hk : 0 < top_k) (hq : strip query ≠ [])
    (hs : scoreAll (embedQuery query) (idx.chunks.zip idx.vectors) = .ok scored) :
    KnowledgeIndex.retrieve idx query embedQuery top_k =
      (.ok ((sortByB scoreGe scored).take top_k.toNat), 1) := by
  unfold KnowledgeIndex.retrieve
  rw [if_neg (by omega), if_neg (by simpa using hq), hs]

/-- Totality of the descending comparison on any scored list. -/
theorem scoreGe_total_on {scored : List RetrievedChunk}
    (hden : ∀ c ∈ scored, 0 < c.score.den) :
    ∀ a ∈ scored, ∀ b ∈ scored, scoreGe a b = true ∨ scoreGe b a = true :=
  fun a ha b hb => cosLe_total (hden b hb) (hden a ha)

/-- Transitivity of the descending comparison on any scored list. -/
theorem scoreGe_trans_on {scored : List RetrievedChunk}
    (hden : ∀ c ∈ scored, 0 < c.score.den) :
    ∀ a ∈ scored, ∀ b ∈ scored, ∀ c ∈ scored,
      scoreGe a b = true → scoreGe b c = true → scoreGe a c = true :=
  fun a ha b hb c hc hab hbc =>
    cosLe_trans (hden c hc) (hden b hb) (hden a ha) hbc hab

/-- Claim C5: for every built index (parallel sequences of equal length, all
vectors of the query dimension as the embedder contract guarantees), non-empty
query and positive top_k, retrieve scores every stored document (`scored` has
one entry per chunk), returns at most top_k results (exactly
`min top_k (number of documents)`), sorted descending by cosine-similarity
score value, and among documents with exactly equal scores (a tie class of the
score order) the output preserves the original load order (its tie class is a
prefix of the scored list's tie class). -/
theorem claim_C5 (idx : KnowledgeIndex) (query : Str) (embedQuery : Str → List ℚ) (top_k : ℤ)
    (hlen : idx.vectors.length = idx.chunks.length)
    (hdim : ∀ v ∈ idx.vectors, v.length = (embedQuery query).length)
    (hq : strip query ≠ []) (hk : 0 < top_k) :
    ∃ scored res,
      scoreAll (embedQuery query) (idx.chunks.zip idx.vectors) = .ok scored ∧
      scored.length = idx.chunks.length ∧
      KnowledgeIndex.retrieve idx query embedQuery top_k = (.ok res, 1) ∧
      res.length = min top_k.toNat idx.chunks.length ∧
      res.Pairwise (fun a b => CosScore.val b.score ≤ CosScore.val a.score) ∧
      (∀ s : CosScore, 0 < s.den →
        ∃ rest,
          res.filter (fun c => CosScore.le c.score s && CosScore.le s c.score) ++ rest =
            scored.filter (fun c => CosScore.le c.score s && CosScore.le s c.score)) := by
  obtain ⟨scored, hs⟩ := @scoreAll_ok (embedQuery query) (idx.chunks.zip idx.vectors)
    (fun p hp => hdim p.2 (List.of_mem_zip hp).2)
  obtain ⟨hmap, hden⟩ := scoreAll_props hs
  have hslen : scored.length = idx.chunks.length := by
    have h1 := congrArg List.length hmap
    simp only [List.length_map] at h1
    rw [h1, List.length_zip, hlen, min_self]
  have hsortden : ∀ c ∈ sortByB scoreGe scored, 0 < c.score.den :=
    fun c hc => hden c ((sortByB_perm scoreGe scored).mem_iff.mp hc)
  have hsorted : (sortByB scoreGe scored).Pairwise (fun a b => scoreGe a b = true) :=
    sortByB_pairwise (scoreGe_total_on hden) (scoreGe_trans_on hden)
  refine ⟨scored, _, hs, hslen, retrieve_eq hk hq hs, ?_, ?_, ?_⟩
  · rw [List.length_take, (sortByB_perm scoreGe scored).length_eq, hslen]
  · have hsub : List.Sublist ((sortByB scoreGe scored).take top_k.toNat) (sortByB scoreGe scored) :=
      List.take_sublist _ _
    refine List.Pairwise.imp_of_mem ?_ (hsorted.sublist hsub)
    intro a b ha hb hab
    exact (cosLe_iff_val b.score a.score (hsortden b (hsub.subset hb))
      (hsortden a (hsub.subset ha))).mp hab
  · intro s hsden
    have hfilter : (sortByB scoreGe scored).filter
        (fun c => CosScore.le c.score s && CosScore.le s c.score) =
        scored.filter (fun c => CosScore.le c.score s && CosScore.le s c.score) := by
      apply sortByB_filter
      intro a ha b hb hpa hpb
      obtain ⟨hpa1, hpa2⟩ := Bool.and_eq_true_iff.mp hpa
      obtain ⟨hpb1, hpb2⟩ := Bool.and_eq_true_iff.mp hpb
      exact cosLe_trans (hden b hb) hsden (hden a ha) hpb1 hpa2
    refine ⟨((sortByB scoreGe scored).drop top_k.toNat).filter
      (fun c => CosScore.le c.score s && CosScore.le s c.score), ?_⟩
    rw [← List.filter_append, List.take_append_drop, hfilter]

/-- Claim C6: cosine similarity errors (`DimensionMismatch`) exactly on length
mismatch, and for equal-length vectors with a zero norm it returns the score
`⟨0, 1⟩` without error, whose real value is exactly 0. -/
theorem claim_C6 (left right : List ℚ) :
    (left.length ≠ right.length →
      _cosine_similarity left right = .error .dimensionMismatch) ∧
    (left.length = right.length → normSq left = 0 ∨ normSq right = 0 →
      _cosine_similarity left right = .ok ⟨0, 1⟩ ∧ CosScore.val ⟨0, 1⟩ = 0) := by
  constructor
  · intro h
    unfold _cosine_similarity
    rw [if_pos h]
  · intro h hz
    refine ⟨?_, ?_⟩
    · unfold _cosine_similarity
      rw [if_neg (by simp [h])]
      dsimp only
      rw [if_pos hz]
    · unfold CosScore.val
      simp

/-- Claim C7 (round-trip): building an index from N documents and N vectors
(with the embedder contract's uniform dimension) and retrieving with
`top_k = N` on a non-empty query returns all N documents, each exactly once
(the retrieved chunks are a permutation of the stored ones). -/
theorem claim_C7 (chunks : List KnowledgeChunk) (vectors : List (List ℚ))
    (idx : KnowledgeIndex) (query : Str) (embedQuery : Str → List ℚ)
    (hbuild : KnowledgeIndex.ofChunks chunks vectors = .ok idx)
    (hne : chunks ≠ [])
    (hdim : ∀ v ∈ vectors, v.length = (embedQuery query).length)
    (hq : strip query ≠ []) :
    ∃ res,
      KnowledgeIndex.retrieve idx query embedQuery (chunks.length : ℤ) = (.ok res, 1) ∧
      List.Perm (res.map RetrievedChunk.toChunk) chunks := by
  unfold KnowledgeIndex.ofChunks at hbuild
  split at hbuild
  · exact absurd hbuild (by simp)
  · rename_i hvlen
    push_neg at hvlen
    cases hbuild
    obtain ⟨scored, hs⟩ := @scoreAll_ok (embedQuery query) (chunks.zip vectors)
      (fun p hp => hdim p.2 (List.of_mem_zip hp).2)
    obtain ⟨hmap, hden⟩ := scoreAll_props hs
    have hk : (0:ℤ) < (chunks.length : ℤ) := by
      exact_mod_cast List.length_pos.mpr hne
    have hslen : scored.length = chunks.length := by
      have h1 := congrArg List.length hmap
      simp only [List.length_map] at h1
      rw [h1, List.length_zip, hvlen, min_self]
    refine ⟨_, retrieve_eq hk hq hs, ?_⟩
    have htake : (sortByB scoreGe scored).take ((chunks.length : ℤ)).toNat =
        sortByB scoreGe scored := by
      apply List.take_of_length_le
      rw [(sortByB_perm scoreGe scored).length_eq, hslen, Int.toNat_natCast]
    rw [htake]
    have hperm : List.Perm ((sortByB scoreGe scored).map RetrievedChunk.toChunk)
        (scored.map RetrievedChunk.toChunk) :=
      (sortByB_perm scoreGe scored).map RetrievedChunk.toChunk
    rw [hmap, List.map_fst_zip chunks vectors (le_of_eq hvlen.symm)] at hperm
    exact hperm

/-- Claim C1: whenever the classified tier is emergency, the orchestrator
returns a Recommendation with empty sources, empty clarifying questions and
emergency flag true, and neither the embedding collaborator (via retrieve) nor
the generation collaborator is invoked (trace (0, 0)). -/
theorem claim_C1 (idx : KnowledgeIndex) (embedQuery : Str → List ℚ) (llm : Str → Str → Str)
    (request : NeuroHealthRequest) (triggers : List Str)
    (hassess : assess_urgency request.symptom_report request.user_input =
      .ok (.emergency, triggers)) :
    ∃ rec, NeuroHealthEngine.generate idx embedQuery llm request = (.ok rec, 0, 0) ∧
      rec.sources = [] ∧ rec.clarifying_questions = [] ∧ rec.needs_emergency = true := by
  unfold NeuroHealthEngine.generate
  rw [hassess]
  dsimp only
  exact ⟨_, rfl, rfl, rfl, rfl⟩

/-- Claim C4: for a request whose classified tier is not emergency (and a
well-formed index/embedder per the collaborator contract), the orchestrator
invokes the generation collaborator exactly once (trace (1, 1)), returns the
generated text as the assistant message, emergency flag false, and sources
equal to the deduplicated, ascending-sorted set of retrieved source fields
(sorted, without duplicates, with exactly the retrieved sources as members). -/
theorem claim_C4 (idx : KnowledgeIndex) (embedQuery : Str → List ℚ) (llm : Str → Str → Str)
    (request : NeuroHealthRequest) (urgency : UrgencyLevel) (triggers : List Str)
    (hassess : assess_urgency request.symptom_report request.user_input = .ok (urgency, triggers))
    (hnotemerg : urgency ≠ .emergency)
    (hdim : ∀ v ∈ idx.vectors, v.length = (embedQuery request.user_input).length)
    (hq : strip request.user_input ≠ []) :
    ∃ rec res,
      KnowledgeIndex.retrieve idx request.user_input embedQuery 4 = (.ok res, 1) ∧
      NeuroHealthEngine.generate idx embedQuery llm request = (.ok rec, 1, 1) ∧
      rec.assistant_message =
        llm (build_reasoning_prompt request res urgency (appointment_for_urgency urgency)
              (build_safety_instructions urgency)
              (build_clarifying_questions request.symptom_report request.user_input))
          build_system_instruction ∧
      rec.needs_emergency = false ∧
      rec.sources.Pairwise (fun a b => strLe a b = true) ∧
      rec.sources.Nodup ∧
      (∀ s, s ∈ rec.sources ↔ s ∈ res.map (fun c => c.source)) := by
  obtain ⟨scored, hs⟩ := @scoreAll_ok (embedQuery request.user_input)
    (idx.chunks.zip idx.vectors) (fun p hp => hdim p.2 (List.of_mem_zip hp).2)
  have hret := @retrieve_eq idx request.user_input embedQuery 4 scored (by omega) hq hs
  refine ⟨⟨llm (build_reasoning_prompt request ((sortByB scoreGe scored).take (4:ℤ).toNat)
        urgency (appointment_for_urgency urgency) (build_safety_instructions urgency)
        (build_clarifying_questions request.symptom_report request.user_input))
      build_system_instruction,
    urgency, appointment_for_urgency urgency, build_safety_instructions urgency,
    sortedSources ((sortByB scoreGe scored).take (4:ℤ).toNat),
    (strOf "urgency:" ++ urgency.toStr) ::
      triggers.map (fun trigger => strOf "trigger:" ++ trigger),
    build_clarifying_questions request.symptom_report request.user_input, false⟩,
    (sortByB scoreGe scored).take (4:ℤ).toNat, hret, ?_, rfl, rfl, ?_, ?_, ?_⟩
  · unfold NeuroHealthEngine.generate
    rw [hassess]
    dsimp only
    rw [if_neg hnotemerg, hret]
  · exact sortByB_pairwise (fun a _ b _ => strLe_total a b)
      (fun a _ b _ c _ => strLe_trans)
  · exact ((sortByB_perm strLe _).symm.nodup (List.nodup_dedup _))
  · intro s
    rw [show sortedSources ((sortByB scoreGe scored).take (4:ℤ).toNat) =
        sortByB strLe ((((sortByB scoreGe scored).take (4:ℤ).toNat).map
          (fun chunk => chunk.source)).dedup) from rfl]
    rw [(sortByB_perm strLe _).mem_iff, List.mem_dedup]

/-- Claim C2: whenever the normalized concatenation of the free text and all
symptom phrases contains an emergency phrase as a substring, `assess_urgency`
returns the emergency tier — regardless of every other field value — and the
trigger list records every matching phrase as `keyword:<phrase>`. -/
theorem claim_C2 (report : SymptomReport) (user_input : Str)
    (h : ∃ kw ∈ EMERGENCY_KEYWORDS,
      strContains (_normalize (joinSpace (user_input :: report.symptoms))) kw = true) :
    ∃ triggers, assess_urgency report user_input = .ok (.emergency, triggers) ∧
      ∀ kw ∈ EMERGENCY_KEYWORDS,
        strContains (_normalize (joinSpace (user_input :: report.symptoms))) kw = true →
          (strOf "keyword:" ++ kw) ∈ triggers := by
  obtain ⟨kw, hkw, hc⟩ := h
  unfold assess_urgency
  dsimp only
  rw [if_pos ?hne]
  case hne =>
    intro hnil
    have hmem : kw ∈ EMERGENCY_KEYWORDS.filter
        (fun k => strContains (_normalize (joinSpace (user_input :: report.symptoms))) k) :=
      List.mem_filter.mpr ⟨hkw, hc⟩
    rw [hnil] at hmem
    exact absurd hmem (List.not_mem_nil kw)
  refine ⟨_, rfl, ?_⟩
  intro kw2 hkw2 hc2
  exact List.mem_map.mpr ⟨kw2, List.mem_filter.mpr ⟨hkw2, hc2⟩, rfl⟩

/-- Claim C10: `assess_urgency` returns `self_care` only when the report lists
no symptoms and the user input is empty after trimming; in particular it never
returns `self_care` for a validly constructed request (whose input is
non-empty after trimming). -/
theorem claim_C10 (report : SymptomReport) (user_input : Str) (triggers : List Str)
    (h : assess_urgency report user_input = .ok (.self_care, triggers)) :
    report.symptoms = [] ∧ strip user_input = [] := by
  unfold assess_urgency at h
  dsimp only at h
  split at h
  · exact absurd h (by simp)
  · split at h
    · exact absurd h (by simp)
    · split at h
      · exact absurd h (by simp)
      · split at h
        · exact absurd h (by simp)
        · split at h
          · exact absurd h (by simp)
          · split at h
            · exact absurd h (by simp)
            · split at h
              · exact absurd h (by simp)
              · split at h
                · exact absurd h (by simp)
                · rename_i hcond
                  push_neg at hcond
                  exact hcond

/-- Under the parsability condition, `_extract_numeric` cannot raise. -/
theorem _extract_numeric_ok {biometrics : List (Str × BioValue)}
    (h : ∀ kv ∈ biometrics, BioValue.parses kv.2) (key : Str) :
    ∃ o, _extract_numeric biometrics key = .ok o := by
  unfold _extract_numeric
  cases hget : bioGet biometrics key with
  | none => exact ⟨none, rfl⟩
  | some v =>
    have hv : BioValue.parses v := by
      unfold bioGet at hget
      cases hfind : biometrics.find? (fun p => p.1 == key) with
      | none =>
        rw [hfind] at hget
        exact absurd hget (by simp)
      | some kv =>
        rw [hfind] at hget
        have hkv : kv.2 = v := by
          simpa using hget
        have := h kv (List.mem_of_find?_eq_some hfind)
        rwa [hkv] at this
    cases v with
    | num q => exact ⟨some q, rfl⟩
    | other => exact ⟨none, rfl⟩
    | text s =>
      dsimp only
      by_cases hempty : strip s = []
      · rw [if_pos hempty]
        exact ⟨none, rfl⟩
      · rw [if_neg hempty]
        rcases hv with hv1 | hv2
        · exact absurd hv1 hempty
        · obtain ⟨q, hq⟩ := Option.isSome_iff_exists.mp hv2
          rw [hq]
          exact ⟨some q, rfl⟩

/-- Claim C3 (amended): `assess_urgency` never raises on account of a
biometric value that is absent, non-string-non-numeric, numeric, or a string
that is empty after trimming or numeric-looking; only a non-empty
non-numeric-looking string value of a consulted key raises. -/
theorem claim_C3_amended (report : SymptomReport) (user_input : Str)
    (h : ∀ kv ∈ report.biometrics, BioValue.parses kv.2) :
    ∃ result, assess_urgency report user_input = .ok result := by
  obtain ⟨o1, ho1⟩ := _extract_numeric_ok h (strOf "oxygen_saturation")
  obtain ⟨o2, ho2⟩ := _extract_numeric_ok h (strOf "temperature_c")
  unfold assess_urgency
  dsimp only
  rw [ho1, ho2]
  dsimp only
  split
  · exact ⟨_, rfl⟩
  · split
    · exact ⟨_, rfl⟩
    · split
      · exact ⟨_, rfl⟩
      · split
        · exact ⟨_, rfl⟩
        · split
          · exact ⟨_, rfl⟩
          · split
            · exact ⟨_, rfl⟩
            · exact ⟨_, rfl⟩

/-- Counterexample to claim C3 as stated: a non-numeric string biometric value
makes `assess_urgency` raise (the Python `float("abc")` ValueError), rather
than skipping the rule. -/
theorem claim_C3_counterexample :
    assess_urgency ⟨[], [(strOf "oxygen_saturation", .text (strOf "abc"))], none, none⟩
      (strOf "dizzy") = .error (.floatParse (strOf "abc")) := rfl

/-- Claim C8: the clarifying-question builder returns at most 3 questions and
equals the spec's formulation — the fixed ordered condition/question list,
each appended only if its condition holds, truncated to the first 3, never
re-ordered or deduplicated. -/
theorem claim_C8 (report : SymptomReport) (user_input : Str) :
    build_clarifying_questions report user_input = clarifyingSpec report user_input ∧
      (build_clarifying_questions report user_input).length ≤ 3 := by
  have heq : build_clarifying_questions report user_input = clarifyingSpec report user_input := by
    unfold build_clarifying_questions clarifyingSpec
    dsimp only
    by_cases h1 : report.duration_hours = none <;>
    by_cases h2 : report.pain_level = none <;>
    by_cases h5 : bioGet report.biometrics (strOf "temperature_c") = none <;>
    cases h3 : strContains (_normalize user_input) (strOf "pain") <;>
    cases h4 : strContains (_normalize user_input) (strOf "fever") <;>
    cases h6 : strContains (_normalize user_input) (strOf "cough") <;>
    cases h7 : strContains (_normalize user_input) (strOf "shortness of breath") <;>
    simp [h1, h2, h3, h4, h5, h6, h7, List.filter, List.take]
  refine ⟨heq, ?_⟩
  unfold build_clarifying_questions
  dsimp only
  exact List.length_take_le 3 _

/-- Computation rule for `Except.isOk`. -/
@[simp]
theorem isOk_ok {e a : Type} (x : a) : (Except.ok x : Except e a).isOk = true := rfl

/-- Computation rule for `Except.isOk`. -/
@[simp]
theorem isOk_error {e a : Type} (x : e) : (Except.error x : Except e a).isOk = false := rfl

/-- One loader entry succeeds exactly on the amended per-entry condition. -/
theorem loadEntry_ok_iff (i : ℕ) (item : Json) :
    (loadEntry i item).isOk = validEntryB item := by
  unfold loadEntry validEntryB
  cases item with
  | obj fields =>
    dsimp only
    cases htags : objGet fields (strOf "tags") (.arr []) with
    | arr tagItems =>
      dsimp only
      by_cases hfe : strip (pyStr (objGet fields (strOf "id") (.str []))) = [] ∨
          strip (pyStr (objGet fields (strOf "title") (.str []))) = [] ∨
          strip (pyStr (objGet fields (strOf "content") (.str []))) = [] ∨
          strip (pyStr (objGet fields (strOf "source") (.str []))) = []
      · rw [if_pos hfe]
        rcases hfe with h | h | h | h <;> simp [h]
      · rw [if_neg hfe]
        push_neg at hfe
        simp [hfe.1, hfe.2.1, hfe.2.2.1, hfe.2.2.2]
    | null => simp
    | bool b => simp
    | int z => simp
    | str s => simp
    | obj fields2 => simp
  | null => simp
  | bool b => simp
  | int z => simp
  | str s => simp
  | arr items => simp

/-- Loaded tags never contain an empty-after-trim entry. -/
theorem loadEntry_tags {i : ℕ} {item : Json} {c : KnowledgeChunk}
    (h : loadEntry i item = .ok c) : ∀ t ∈ c.tags, t ≠ [] := by
  unfold loadEntry at h
  cases item with
  | obj fields =>
    dsimp only at h
    split at h
    · split at h
      · exact absurd h (by simp)
      · cases h
        intro t ht
        simpa using (List.mem_filter.mp ht).2
    · exact absurd h (by simp)
  | null => exact absurd h (by simp)
  | bool b => exact absurd h (by simp)
  | int z => exact absurd h (by simp)
  | str s => exact absurd h (by simp)
  | arr items => exact absurd h (by simp)

/-- On an object entry with list-valued tags but a missing or
empty-after-coercion-and-trim required field, the loader raises the
missing-required-fields error carrying the entry's index. -/
theorem loadEntry_missingFields {i : ℕ} {item : Json}
    (h : entryMissingFieldsB item = true) :
    loadEntry i item = .error (.missingFields i) := by
  unfold entryMissingFieldsB at h
  cases item with
  | obj fields =>
    dsimp only at h
    unfold loadEntry
    dsimp only
    cases htags : objGet fields (strOf "tags") (.arr []) with
    | arr tagItems =>
      rw [htags] at h
      dsimp only at h
      have hcond : strip (pyStr (objGet fields (strOf "id") (.str []))) = [] ∨
          strip (pyStr (objGet fields (strOf "title") (.str []))) = [] ∨
          strip (pyStr (objGet fields (strOf "content") (.str []))) = [] ∨
          strip (pyStr (objGet fields (strOf "source") (.str []))) = [] := by
        simpa [or_assoc] using h
      dsimp only
      rw [if_pos hcond]
    | null =>
      rw [htags] at h
      simp at h
    | bool b =>
      rw [htags] at h
      simp at h
    | int z =>
      rw [htags] at h
      simp at h
    | str s2 =>
      rw [htags] at h
      simp at h
    | obj fields2 =>
      rw [htags] at h
      simp at h
  | null => simp at h
  | bool b => simp at h
  | int z => simp at h
  | str s2 => simp at h
  | arr items => simp at h

/-- The loader loop succeeds exactly when every entry is valid. -/
theorem loadEntries_ok_iff (i : ℕ) (items : List Json) :
    (loadEntries i items).isOk = items.all validEntryB := by
  induction items generalizing i with
  | nil => rfl
  | cons item rest ih =>
    rw [loadEntries, List.all_cons, ← loadEntry_ok_iff i item, ← ih (i + 1)]
    cases loadEntry i item with
    | error e => simp
    | ok c =>
      cases hrest : loadEntries (i + 1) rest with
      | error e => simp [hrest]
      | ok cs => simp [hrest]

/-- A successful loader loop is 1:1 and its tags have no empty entries. -/
theorem loadEntries_ok_props {i : ℕ} {items : List Json} {cs : List KnowledgeChunk}
    (h : loadEntries i items = .ok cs) :
    cs.length = items.length ∧ ∀ c ∈ cs, ∀ t ∈ c.tags, t ≠ [] := by
  induction items generalizing i cs with
  | nil =>
    cases h
    simp
  | cons item rest ih =>
    rw [loadEntries] at h
    cases hle : loadEntry i item with
    | error e =>
      rw [hle] at h
      exact absurd h (by simp)
    | ok c =>
      rw [hle] at h
      cases hrest : loadEntries (i + 1) rest with
      | error e =>
        rw [hrest] at h
        exact absurd h (by simp)
      | ok cs2 =>
        rw [hrest] at h
        dsimp only at h
        cases h
        obtain ⟨hlen, htags⟩ := ih hrest
        refine ⟨by simp [hlen], ?_⟩
        intro c2 hc2
        rcases List.mem_cons.mp hc2 with hh | ht
        · rw [hh]
          exact loadEntry_tags hle
        · exact htags c2 ht

/-- When all entries before position k are valid and entry k raises, the
loader loop propagates entry k's error (the entry is processed at 1-based
index `i + k` when the loop starts at `i`). -/
theorem loadEntries_err_at {e : Err} (items : List Json) (i k : ℕ) (hk : k < items.length)
    (hvalid : ∀ m (hm : m < k), validEntryB (items.get ⟨m, lt_trans hm hk⟩) = true)
    (hbad : loadEntry (i + k) (items.get ⟨k, hk⟩) = .error e) :
    loadEntries i items = .error e := by
  induction items generalizing i k with
  | nil => exact absurd hk (by simp)
  | cons item rest ih =>
    cases k with
    | zero =>
      rw [Nat.add_zero] at hbad
      have hbad0 : loadEntry i item = .error e := hbad
      rw [loadEntries, hbad0]
    | succ k2 =>
      have hk2 : k2 < rest.length := by
        simpa using hk
      have hhead : validEntryB item = true := hvalid 0 (Nat.succ_pos k2)
      have hok : (loadEntry i item).isOk = true := by
        rw [loadEntry_ok_iff, hhead]
      cases hle : loadEntry i item with
      | error e2 =>
        rw [hle] at hok
        exact absurd hok (by simp)
      | ok c =>
        have hbad2 : loadEntry (i + 1 + k2) (rest.get ⟨k2, hk2⟩) = .error e := by
          have hi : i + 1 + k2 = i + (k2 + 1) := by omega
          rw [hi]
          exact hbad
        rw [loadEntries, hle, ih (i + 1) k2 hk2 (fun m hm => hvalid (m + 1) (by omega)) hbad2]

/-- Claim C9 (amended): the loader succeeds exactly when the top level is a
non-empty list of objects whose id/title/content/source fields coerce
(`str()`) to non-empty strings after trimming and whose tags, when present, is
a list; an empty list or a non-list top level is a collection error; a missing
or empty-after-coercion-and-trim required field — in an entry whose tags value
is a list, since the invalid-tags check precedes the field check and its
message shows the stripped id rather than the index when the id is non-empty —
is the missing-required-fields error naming the offending entry's 1-based
index; and empty-after-trim tag entries are dropped (no loaded tag is empty). -/
theorem claim_C9_amended (raw_data : Json) :
    ((load_knowledge_chunks raw_data).isOk = validCollectionB raw_data) ∧
    (raw_data = .arr [] → load_knowledge_chunks raw_data = .error .emptyCollection) ∧
    ((∀ items, raw_data ≠ .arr items) → load_knowledge_chunks raw_data = .error .notList) ∧
    (∀ chunks, load_knowledge_chunks raw_data = .ok chunks →
      ∀ c ∈ chunks, ∀ t ∈ c.tags, t ≠ []) ∧
    (∀ items k, raw_data = .arr items → ∀ hk : k < items.length,
      (∀ m (hm : m < k), validEntryB (items.get ⟨m, lt_trans hm hk⟩) = true) →
      entryMissingFieldsB (items.get ⟨k, hk⟩) = true →
      load_knowledge_chunks raw_data = .error (.missingFields (k + 1))) := by
  refine ⟨?_, ?_, ?_, ?_, ?_⟩
  · cases raw_data with
    | arr items =>
      rw [load_knowledge_chunks]
      cases hle : loadEntries 1 items with
      | error e =>
        have hall := loadEntries_ok_iff 1 items
        rw [hle] at hall
        simp only [isOk_error] at hall
        simp [validCollectionB, ← hall]
      | ok chunks =>
        dsimp only
        have hall := loadEntries_ok_iff 1 items
        rw [hle] at hall
        simp only [isOk_ok] at hall
        obtain ⟨hlen, -⟩ := loadEntries_ok_props hle
        by_cases hempty : chunks = []
        · subst hempty
          have hitems : items = [] := List.eq_nil_of_length_eq_zero hlen.symm
          subst hitems
          simp [validCollectionB]
        · rw [if_neg hempty]
          have hitems : items ≠ [] := by
            intro hnil
            subst hnil
            exact hempty (List.eq_nil_of_length_eq_zero hlen)
          simp [validCollectionB, hitems, ← hall]
    | null => simp [load_knowledge_chunks, validCollectionB]
    | bool b => simp [load_knowledge_chunks, validCollectionB]
    | int z => simp [load_knowledge_chunks, validCollectionB]
    | str s => simp [load_knowledge_chunks, validCollectionB]
    | obj fields => simp [load_knowledge_chunks, validCollectionB]
  · intro h
    subst h
    rfl
  · intro h
    cases raw_data with
    | arr items => exact absurd rfl (h items)
    | null => rfl
    | bool b => rfl
    | int z => rfl
    | str s => rfl
    | obj fields => rfl
  · intro chunks h
    cases raw_data with
    | arr items =>
      rw [load_knowledge_chunks] at h
      cases hle : loadEntries 1 items with
      | error e =>
        rw [hle] at h
        exact absurd h (by simp)
      | ok cs =>
        rw [hle] at h
        dsimp only at h
        split at h
        · exact absurd h (by simp)
        · cases h
          exact (loadEntries_ok_props hle).2
    | null => exact absurd h (by simp [load_knowledge_chunks])
    | bool b => exact absurd h (by simp [load_knowledge_chunks])
    | int z => exact absurd h (by simp [load_knowledge_chunks])
    | str s => exact absurd h (by simp [load_knowledge_chunks])
    | obj fields => exact absurd h (by simp [load_knowledge_chunks])
  · intro items k hraw hk hvalid hbad
    subst hraw
    have he : loadEntries 1 items = .error (.missingFields (1 + k)) :=
      loadEntries_err_at items 1 k hk hvalid (loadEntry_missingFields hbad)
    have hcomm : (1 : ℕ) + k = k + 1 := Nat.add_comm 1 k
    rw [hcomm] at he
    rw [load_knowledge_chunks, he]

/-- Counterexample to claim C9's "succeeds exactly when" as stated, in both
directions: a collection whose entries have the four required fields as
non-empty strings (the claim's success condition) can still fail to load,
because a non-list tags field is rejected; and a collection failing the stated
condition (its id field is a number, not a string) loads successfully through
the `str()` coercion. -/
theorem claim_C9_counterexample :
    (claimCollectionB c9CounterJson = true ∧
      ∀ chunks, load_knowledge_chunks c9CounterJson ≠ .ok chunks) ∧
    (claimCollectionB c9CoercedJson = false ∧
      (load_knowledge_chunks c9CoercedJson).isOk = true) := by
  refine ⟨⟨rfl, ?_⟩, rfl, rfl⟩
  intro chunks h
  rw [show load_knowledge_chunks c9CounterJson = .error (.invalidTags 1 (strOf "a")) from rfl] at h
  exact Except.noConfusion h

/-- Witness for C1 at a concrete emergency request. -/
theorem claim_C1_witness :
    (assess_urgency (⟨[], [], none, none⟩ : SymptomReport) (strOf "chest pain") =
      .ok (.emergency, [strOf "keyword:chest pain"])) ∧
    ∃ rec, NeuroHealthEngine.generate ⟨[], []⟩ (fun _ => []) (fun _ _ => [])
        ⟨strOf "chest pain", ⟨none, [], [], [], .intermediate⟩, ⟨[], [], none, none⟩, []⟩ =
        (.ok rec, 0, 0) ∧
      rec.sources = [] ∧ rec.clarifying_questions = [] ∧ rec.needs_emergency = true :=
  ⟨rfl, claim_C1 _ _ _ _ _ rfl⟩

/-- Witness for C2: an upper-case keyword inside a symptom phrase, with a
malformed biometric present, still classifies as emergency. -/
theorem claim_C2_witness :
    (∃ kw ∈ EMERGENCY_KEYWORDS,
      strContains (_normalize (joinSpace (strOf "I feel odd" :: [strOf "STROKE maybe"]))) kw =
        true) ∧
    ∃ triggers,
      assess_urgency
          ⟨[strOf "STROKE maybe"], [(strOf "oxygen_saturation", .text (strOf "bad"))], none, none⟩
          (strOf "I feel odd") = .ok (.emergency, triggers) ∧
      ∀ kw ∈ EMERGENCY_KEYWORDS,
        strContains (_normalize (joinSpace (strOf "I feel odd" :: [strOf "STROKE maybe"]))) kw =
            true →
          (strOf "keyword:" ++ kw) ∈ triggers :=
  ⟨⟨strOf "stroke", by decide, by decide⟩,
   claim_C2 ⟨[strOf "STROKE maybe"], [(strOf "oxygen_saturation", .text (strOf "bad"))], none, none⟩
     (strOf "I feel odd") ⟨strOf "stroke", by decide, by decide⟩⟩

/-- Witness for the amended C3 at a report with a numeric and a blank-string
biometric. -/
theorem claim_C3_witness :
    (∀ kv ∈ ([(strOf "oxygen_saturation", BioValue.num 95),
        (strOf "temperature_c", BioValue.text (strOf " "))] : List (Str × BioValue)),
      BioValue.parses kv.2) ∧
    ∃ result,
      assess_urgency
          ⟨[strOf "headache"],
           [(strOf "oxygen_saturation", .num 95), (strOf "temperature_c", .text (strOf " "))],
           none, none⟩
          (strOf "mild headache") = .ok result := by
  have hp : ∀ kv ∈ ([(strOf "oxygen_saturation", BioValue.num 95),
      (strOf "temperature_c", BioValue.text (strOf " "))] : List (Str × BioValue)),
      BioValue.parses kv.2 := by
    intro kv hkv
    rcases List.mem_cons.mp hkv with rfl | h
    · trivial
    · rcases List.mem_cons.mp h with rfl | h2
      · exact Or.inl rfl
      · exact absurd h2 (List.not_mem_nil kv)
  exact ⟨hp, claim_C3_amended _ _ hp⟩

/-- Witness for C4 at a concrete routine request over a one-document index. -/
theorem claim_C4_witness :
    (assess_urgency (⟨[], [], none, none⟩ : SymptomReport) (strOf "headache") =
      .ok (.routine, [strOf "symptoms_present"])) ∧
    (UrgencyLevel.routine ≠ .emergency) ∧
    ∃ rec res,
      KnowledgeIndex.retrieve ⟨[⟨strOf "a", strOf "t", strOf "c", strOf "s", []⟩], [[1]]⟩
          (strOf "headache") (fun _ => [1]) 4 = (.ok res, 1) ∧
      NeuroHealthEngine.generate ⟨[⟨strOf "a", strOf "t", strOf "c", strOf "s", []⟩], [[1]]⟩
          (fun _ => [1]) (fun _ _ => strOf "out")
          ⟨strOf "headache", ⟨none, [], [], [], .intermediate⟩, ⟨[], [], none, none⟩, []⟩ =
        (.ok rec, 1, 1) ∧
      rec.assistant_message = strOf "out" ∧
      rec.needs_emergency = false ∧
      rec.sources.Pairwise (fun a b => strLe a b = true) ∧
      rec.sources.Nodup ∧
      (∀ s, s ∈ rec.sources ↔ s ∈ res.map (fun c => c.source)) :=
  ⟨rfl, by decide,
   claim_C4 ⟨[⟨strOf "a", strOf "t", strOf "c", strOf "s", []⟩], [[1]]⟩ (fun _ => [1])
     (fun _ _ => strOf "out")
     ⟨strOf "headache", ⟨none, [], [], [], .intermediate⟩, ⟨[], [], none, none⟩, []⟩
     .routine [strOf "symptoms_present"] rfl (by decide) (by decide) (by decide)⟩

/-- Witness for C5 over a two-document index with top_k = 1. -/
theorem claim_C5_witness :
    (([[1], [0]] : List (List ℚ)).length = 2 ∧ strip (strOf "fever") ≠ [] ∧ (0:ℤ) < 1) ∧
    ∃ scored res,
      scoreAll ((fun _ => [1]) (strOf "fever"))
          ((([⟨strOf "a", strOf "t", strOf "c", strOf "s", []⟩,
              ⟨strOf "b", strOf "u", strOf "d", strOf "r", []⟩] : List KnowledgeChunk)).zip
            ([[1], [0]] : List (List ℚ))) = .ok scored ∧
      scored.length = 2 ∧
      KnowledgeIndex.retrieve
          ⟨[⟨strOf "a", strOf "t", strOf "c", strOf "s", []⟩,
            ⟨strOf "b", strOf "u", strOf "d", strOf "r", []⟩], [[1], [0]]⟩
          (strOf "fever") (fun _ => [1]) 1 = (.ok res, 1) ∧
      res.length = min (1:ℤ).toNat 2 ∧
      res.Pairwise (fun a b => CosScore.val b.score ≤ CosScore.val a.score) ∧
      (∀ s : CosScore, 0 < s.den →
        ∃ rest,
          res.filter (fun c => CosScore.le c.score s && CosScore.le s c.score) ++ rest =
            scored.filter (fun c => CosScore.le c.score s && CosScore.le s c.score)) :=
  ⟨⟨rfl, by decide, by decide⟩,
   claim_C5 ⟨[⟨strOf "a", strOf "t", strOf "c", strOf "s", []⟩,
       ⟨strOf "b", strOf "u", strOf "d", strOf "r", []⟩], [[1], [0]]⟩
     (strOf "fever") (fun _ => [1]) 1 rfl (by decide) (by decide) (by decide)⟩

/-- Witness for C6: a length mismatch and a zero-norm pair. -/
theorem claim_C6_witness :
    (([1] : List ℚ).length ≠ ([] : List ℚ).length ∧
      _cosine_similarity [1] [] = .error .dimensionMismatch) ∧
    (([] : List ℚ).length = ([] : List ℚ).length ∧ normSq ([] : List ℚ) = 0 ∧
      _cosine_similarity [] [] = .ok ⟨0, 1⟩ ∧ CosScore.val ⟨0, 1⟩ = 0) :=
  ⟨⟨by decide, (claim_C6 [1] []).1 (by decide)⟩,
   ⟨rfl, rfl, (claim_C6 [] []).2 rfl (Or.inl rfl)⟩⟩

/-- Witness for C7 over a one-document index. -/
theorem claim_C7_witness :
    (KnowledgeIndex.ofChunks [⟨strOf "a", strOf "t", strOf "c", strOf "s", []⟩] [[1]] =
      .ok ⟨[⟨strOf "a", strOf "t", strOf "c", strOf "s", []⟩], [[1]]⟩) ∧
    ∃ res,
      KnowledgeIndex.retrieve ⟨[⟨strOf "a", strOf "t", strOf "c", strOf "s", []⟩], [[1]]⟩
          (strOf "fever") (fun _ => [1])
          (([⟨strOf "a", strOf "t", strOf "c", strOf "s", []⟩] : List KnowledgeChunk).length : ℤ) =
        (.ok res, 1) ∧
      List.Perm (res.map RetrievedChunk.toChunk) [⟨strOf "a", strOf "t", strOf "c", strOf "s", []⟩] :=
  ⟨rfl,
   claim_C7 [⟨strOf "a", strOf "t", strOf "c", strOf "s", []⟩] [[1]]
     ⟨[⟨strOf "a", strOf "t", strOf "c", strOf "s", []⟩], [[1]]⟩ (strOf "fever") (fun _ => [1])
     rfl (by decide) (by decide) (by decide)⟩

/-- Witness for the amended C9: the empty collection and a non-list top level
are collection errors, and an object entry with every required field absent is
the missing-required-fields error naming index 1. -/
theorem claim_C9_witness :
    (load_knowledge_chunks (.arr []) = .error .emptyCollection) ∧
    (load_knowledge_chunks (.int 3) = .error .notList) ∧
    (load_knowledge_chunks (.arr [.obj []]) = .error (.missingFields 1)) :=
  ⟨(claim_C9_amended (.arr [])).2.1 rfl,
   (claim_C9_amended (.int 3)).2.2.1 (fun _ h => Json.noConfusion h),
   (claim_C9_amended (.arr [.obj []])).2.2.2.2 [.obj []] 0 rfl (by decide)
     (fun m hm => absurd hm (Nat.not_lt_zero m)) rfl⟩

/-- Witness for C10 at the empty request. -/
theorem claim_C10_witness :
    (assess_urgency (⟨[], [], none, none⟩ : SymptomReport) [] =
      .ok (.self_care, [strOf "no_risk_signal"])) ∧
    ((⟨[], [], none, none⟩ : SymptomReport).symptoms = [] ∧ strip ([] : Str) = []) :=
  ⟨rfl, claim_C10 ⟨[], [], none, none⟩ [] [strOf "no_risk_signal"] rfl⟩
